import Mathlib

/-
Verification of the per-sensor acceleration-conversion core of
`convert_acc` (shallow embedding of `src/convert_acc/__init__.py`).

Numbers produced by the Python code are modelled as exact rationals (ℚ),
integer ADC counts as ℤ, pandas series as Lean lists, and the single wide
pandas dataframe as an association list from column names to columns.
Fallible operations return `Option`; a Python exception (or an implicit
`return None`) is modelled as `none`.
-/

namespace ConvertAcc

/-- The fixed sensor code table, `SENSOR_CODES` in the source. -/
def SENSOR_CODES : List String := ["N39", "S39", "N24", "S24", "N12", "S12", "B4F", "FF"]

/-- The fixed 24-entry sensor-code-with-channel table,
`SENSOR_CODES_WITH_CHANNELS` in the source. -/
def SENSOR_CODES_WITH_CHANNELS : List String :=
  ["N39x", "N39y", "N39z", "S39x", "S39y", "S39z",
   "N24x", "N24y", "N24z", "S24x", "S24y", "S24z",
   "N12x", "N12y", "N12z", "S12x", "S12y", "S12z",
   "B4Fx", "B4Fy", "B4Fz", "FFN", "FFW", "FFZ"]

/-- Lexicographic strict order on character lists by code point,
the order Python uses to compare `str` values. -/
def charListLt : List Char → List Char → Bool
  | [], [] => false
  | [], _ :: _ => true
  | _ :: _, [] => false
  | a :: as, b :: bs =>
    if a.toNat < b.toNat then true
    else if b.toNat < a.toNat then false
    else charListLt as bs

/-- Lexicographic non-strict order on character lists by code point. -/
def charListLe : List Char → List Char → Bool
  | [], _ => true
  | _ :: _, [] => false
  | a :: as, b :: bs =>
    if a.toNat < b.toNat then true
    else if b.toNat < a.toNat then false
    else charListLe as bs

/-- Python string comparison `a < b`. -/
def pyStrLt (a b : String) : Bool := charListLt a.data b.data

/-- Python string comparison `a <= b`. -/
def pyStrLe (a b : String) : Bool := charListLe a.data b.data

/-- `p` is a leading segment of `l` (helper for the substring test). -/
def headSegChars : List Char → List Char → Bool
  | [], _ => true
  | _ :: _, [] => false
  | a :: as, b :: bs => a = b && headSegChars as bs

/-- `p` occurs contiguously inside `l`: Python's `p in l` on strings. -/
def isInfixChars (p : List Char) : List Char → Bool
  | [] => headSegChars p []
  | l@(_ :: t) => headSegChars p l || isInfixChars p t

/-- Python's substring test `sub in s`. -/
def pyIn (sub s : String) : Bool := isInfixChars sub.data s.data

/-- Python's `s.split(c)` on the character list of a string
(empty fields are kept, as in Python). -/
def splitChar (c : Char) : List Char → List (List Char)
  | [] => [[]]
  | a :: t =>
    match splitChar c t with
    | [] => [[]]
    | cur :: rest => if a = c then [] :: cur :: rest else (a :: cur) :: rest

/-- Insert a string into an already sorted list, after all entries
that compare `<=` to it (stable insertion). -/
def insertLe (x : String) : List String → List String
  | [] => [x]
  | y :: t => if pyStrLe y x then y :: insertLe x t else x :: y :: t

/-- Python's `sorted` on a list of strings: a stable ascending sort
(modelled as stable insertion sort, which produces the same list). -/
def pySorted (l : List String) : List String := l.foldl (fun acc x => insertLe x acc) []

/-- `Conversion.convertCountToG`: `g = count * (2.5 / 8388608) * (1 / sensitivity)`.
The Python floats 2.5 and the divisor are exact; the count argument is an
integer carried into ℚ. -/
def convertCountToG (sensitivity count : ℚ) : ℚ :=
  count * (5 / 2 / 8388608) * (1 / sensitivity)

/-- `Conversion.convertGToMetric`: `g * 9.80665`. -/
def convertGToMetric (g : ℚ) : ℚ := g * (980665 / 100000)

/-- `Conversion.convertMToCm`: `m * 100`. -/
def convertMToCm (m : ℚ) : ℚ := m * 100

/-- `scipy.signal.detrend(type='constant')` as used by the source:
subtract the arithmetic mean from every entry. -/
def detrendConstant (xs : List ℚ) : List ℚ :=
  xs.map (fun v => v - xs.sum / (xs.length : ℚ))

/-- Loop body of `Conversion.integrateSeries`: `xprev` is the previous
input sample and `y` the last appended integral value (the source keeps
it as `integratedList[-1]`). -/
def integrateAux (dt : ℚ) : ℚ → ℚ → List ℚ → List ℚ
  | _, _, [] => []
  | xprev, y, x :: xs =>
    (dt * (xprev + x) / 2 + y) :: integrateAux dt x (dt * (xprev + x) / 2 + y) xs

/-- `Conversion.integrateSeries`: cumulative trapezoidal integral.
The source zips the series with its tail and folds, starting from `[0]`;
this is the same recursion written structurally. -/
def integrateSeries (dt : ℚ) : List ℚ → List ℚ
  | [] => [0]
  | x :: xs => 0 :: integrateAux dt x 0 xs

/-- `self.zeroPadLength` in the source. -/
def zeroPadLength : ℕ := 500

/-- `self.ignoredSamples` in the source. -/
def ignoredSamples : ℕ := 6000

/-- `endIndex = 40000 + self.zeroPadLength` in `removeExtraneousSamples`. -/
def endIndex : ℕ := 40000 + zeroPadLength

/-- `pandas.DataFrame.truncate(before, after)` on a 0-based range index,
followed by `reset_index`: keep the entries whose index lies in the closed
range `[before, after]`, reindexed from 0. -/
def truncList {α : Type} (before after : ℕ) (l : List α) : List α :=
  (l.drop before).take (after + 1 - before)

/-- Dot product of a coefficient list against a (most-recent-first)
history list; missing history is zero (filter initial rest is zero). -/
def dotQ : List ℚ → List ℚ → ℚ
  | [], _ => 0
  | _ :: _, [] => 0
  | c :: cs, h :: hs => c * h + dotQ cs hs

/-- Recursion for `lfilter`: `xrev`/`yrev` hold the already consumed
inputs and produced outputs, most recent first. -/
def lfilterAux (b aTail : List ℚ) (a0 : ℚ) : List ℚ → List ℚ → List ℚ → List ℚ
  | [], _, yrev => yrev.reverse
  | x :: xs, xrev, yrev =>
    lfilterAux b aTail a0 xs (x :: xrev)
      ((dotQ b (x :: xrev) - dotQ aTail yrev) / a0 :: yrev)

/-- Modelled from the spec: `scipy.signal.lfilter(b, a, x)` is not part of
the repository; the spec fixes it to the causal (single forward pass,
zero initial state) IIR difference equation
`a0*y[n] = sum b[i]*x[n-i] - sum_(j>=1) a[j]*y[n-j]`. -/
def lfilter (b a x : List ℚ) : List ℚ :=
  lfilterAux b (a.drop 1) (a.headD 1) x [] []

/-- Modelled from the spec: numerator coefficients of the order-2
Butterworth band-pass for `fs=100, lowcut=0.05, highcut=40`
(`scipy.signal.butter` is outside the repository; values are the
reference coefficients of spec section 8). -/
def bandB : List ℚ := [63748352 / 10 ^ 8, 0, -127496704 / 10 ^ 8, 0, 63748352 / 10 ^ 8]

/-- Modelled from the spec: denominator coefficients of the band-pass. -/
def bandA : List ℚ :=
  [1, -85279266 / 10 ^ 8, -87204231 / 10 ^ 8, 31384784 / 10 ^ 8, 41101232 / 10 ^ 8]

/-- Modelled from the spec: numerator coefficients of the order-2
Butterworth high-pass for `fs=100, lowcut=0.05`. -/
def highB : List ℚ := [99778102 / 10 ^ 8, -199556205 / 10 ^ 8, 99778102 / 10 ^ 8]

/-- Modelled from the spec: denominator coefficients of the high-pass. -/
def highA : List ℚ := [1, -199555712 / 10 ^ 8, 99556697 / 10 ^ 8]

/-- `Conversion.butterPass`: selects the filter coefficients by type. -/
def butterPass (filterType : String) : List ℚ × List ℚ :=
  if filterType = "band" then (bandB, bandA) else (highB, highA)

/-- `pandas.Series.min` over a column (only ever used on non-empty
columns; the empty case is given a dummy value 0). -/
def listMin : List ℚ → ℚ
  | [] => 0
  | h :: t => t.foldl min h

/-- `pandas.Series.max` over a column. -/
def listMax : List ℚ → ℚ
  | [] => 0
  | h :: t => t.foldl max h

/-- `self.df.index[self.df[col] == v][0]`: the first index whose entry
equals `v` (length of the list when `v` is absent). -/
def firstIdxOf (v : ℚ) : List ℚ → ℕ
  | [] => 0
  | h :: t => if h = v then 0 else firstIdxOf v t + 1

/-- Numeric value of a decimal digit string, as Python's `int`. -/
def digitsToNat (ds : List Char) : ℕ :=
  ds.foldl (fun n c => 10 * n + (c.toNat - 48)) 0

/-- Round to the nearest integer, ties to the even integer: the rounding
used by Python's `round` on exactly representable halves. -/
def roundHalfEven (q : ℚ) : ℤ :=
  if q - ⌊q⌋ < 1 / 2 then ⌊q⌋
  else if q - ⌊q⌋ > 1 / 2 then ⌊q⌋ + 1
  else if ⌊q⌋ % 2 = 0 then ⌊q⌋ else ⌊q⌋ + 1

/-- Python's `round(q, nd)` in exact rational arithmetic. -/
def pyRound (nd : ℕ) (q : ℚ) : ℚ := (roundHalfEven (q * 10 ^ nd) : ℚ) / 10 ^ nd

/-- `Conversion.getStats`: min/max of the column, their first indices,
the pair with the larger absolute value (ties to the max, since the
source test `abs(min) > abs(max)` is strict), and the peak value rounded
to 4 decimal places. Returns (index, rawValue, roundedValue). -/
def getStats (col : List ℚ) : ℕ × ℚ × ℚ :=
  if |listMin col| > |listMax col| then
    (firstIdxOf (listMin col) col, listMin col, pyRound 4 (listMin col))
  else
    (firstIdxOf (listMax col) col, listMax col, pyRound 4 (listMax col))

/-- `getFloor`: the concatenation of the decimal digits of the token. -/
def getFloor (s : String) : String := ⟨s.data.filter (fun c => c.isDigit)⟩

/-- Case analysis of `getFloorCode` over the characters of the token
(`s` itself is still needed for `getFloor`). A token whose first branch
is `N`/`S` with no digits makes Python's `int('')` raise, modelled as
`none`; a token matching no branch leaves `letter`/`numeric` unbound and
Python raises `UnboundLocalError`, also modelled as `none`; an empty
token raises `IndexError` at `sensorCodeText[0]`, again `none`. -/
def getFloorCodeAux (s : String) : List Char → Option String
  | [] => none
  | c :: _ =>
    if c = 'F' then some "GF"
    else if c = 'N' ∨ c = 'S' then
      if (getFloor s).data = [] then none
      else some ("L" ++ toString (digitsToNat (getFloor s).data + 1))
    else if c = 'B' then some ("B" ++ getFloor s)
    else none

/-- `getFloorCode` from the source. -/
def getFloorCode (s : String) : Option String := getFloorCodeAux s s.data

/-- `getTimeText`: hour-of-day characters 8..9 of the leading
dot-delimited 14-digit timestamp token of the file's base name, paired
with the full token. -/
def getTimeText (f : String) : String × String :=
  let filename := (splitChar '/' f.data).getLastD []
  let timestampText := (splitChar '.' filename).headD []
  let UTCHour := (timestampText.drop 8).take 2
  (⟨UTCHour⟩, ⟨timestampText⟩)

/-- `Conversion.setSensitivity`: 1.25 V/g for table codes containing an
`F` (ground floor and far field), 0.625 V/g for the other table codes;
the `ValueError` raised for an unknown code is modelled as `none`. -/
def setSensitivity (s : String) : Option ℚ :=
  let groundFloorSensorCodes := SENSOR_CODES_WITH_CHANNELS.filter (fun c => pyIn "F" c)
  let upperFloorSensorCodes := SENSOR_CODES_WITH_CHANNELS.filter (fun c => !(pyIn "F" c))
  if s ∈ groundFloorSensorCodes then some (5 / 4)
  else if s ∈ upperFloorSensorCodes then some (5 / 8)
  else none

/-- `sortFilesBySensorCode`: for each code of `SENSOR_CODES` in order,
the lexicographically sorted group of files containing that code. -/
def sortFilesBySensorCode (inputFileList : List String) : List String :=
  SENSOR_CODES.foldl
    (fun sortedList code =>
      sortedList ++ pySorted (inputFileList.filter (fun f => pyIn code f))) []

/-- `sortFiles`: one distinct `(hour, timestamp)` pair sorts by sensor
code; two pairs put the files of the earlier hour first; any other count
falls off the end of the Python function, which returns `None`
(the spec's `UnsupportedEventSpan`), modelled as `none`. Python's
`list(set(..))` is modelled as `dedup`; only for two same-hour distinct
timestamps could the unspecified set order affect the chosen half, and
each file still lands in exactly one half. -/
def sortFiles (inputFileList : List String) : Option (List String) :=
  match (inputFileList.map getTimeText).dedup with
  | [_] => some (sortFilesBySensorCode inputFileList)
  | [t0, t1] =>
    let firstTime := if pyStrLt t0.1 t1.1 then t0.2 else t1.2
    some (sortFilesBySensorCode (inputFileList.filter (fun f => pyIn firstTime f)) ++
          sortFilesBySensorCode (inputFileList.filter (fun f => !(pyIn firstTime f))))
  | _ => none

/-- A dataframe cell: the timestamp column holds strings and the `None`
padding marker; every other column holds numbers. -/
inductive Cell where
  | null : Cell
  | str : String → Cell
  | num : ℚ → Cell
deriving DecidableEq

/-- A pandas dataframe: ordered association list from column names to
columns (pandas keeps columns in insertion order). -/
abbrev Df : Type := List (String × List Cell)

/-- Numeric reading of a cell (used only on numeric columns). -/
def cellToQ : Cell → ℚ
  | Cell.num q => q
  | _ => 0

/-- Wrap a rational series as a dataframe column. -/
def numCol (qs : List ℚ) : List Cell := qs.map Cell.num

/-- Read a dataframe column as a rational series. -/
def colQ (c : List Cell) : List ℚ := c.map cellToQ

/-- Column lookup, `df[name]` (empty for a missing name). -/
def getCol (df : Df) (name : String) : List Cell := (df.lookup name).getD []

/-- Column assignment, `df[name] = v`: overwrite in place if the name
exists, else append a new column at the end (pandas semantics). -/
def setCol (name : String) (v : List Cell) : Df → Df
  | [] => [(name, v)]
  | (n, c) :: t => if n = name then (name, v) :: t else (n, c) :: setCol name v t

/-- `Conversion.getZeroPaddedDf`: a NEW dataframe holding only the
requested columns, each padded on both ends with `zeroPadLength`
entries — `None` markers for the timestamp column, zeros otherwise. -/
def getZeroPaddedDf (padLen : ℕ) (df : Df) (columns : List String) : Df :=
  columns.map (fun column =>
    if column = "timestamp" then
      (column, List.replicate padLen Cell.null ++ getCol df column ++
               List.replicate padLen Cell.null)
    else
      (column, List.replicate padLen (Cell.num 0) ++ getCol df column ++
               List.replicate padLen (Cell.num 0)))

/-- `Conversion.removeExtraneousSamples`: truncate every column of the
dataframe to the closed index range `[ignoredSamples, endIndex]` and
reindex from 0. -/
def removeExtraneousSamplesDf (df : Df) : Df :=
  df.map (fun kc => (kc.1, truncList ignoredSamples endIndex kc.2))

/-- The clean two-column dataframe a `Conversion` object receives:
a timestamp column and an integer count column. -/
def initialDf (timestamps : List String) (counts : List ℤ) : Df :=
  [("timestamp", timestamps.map Cell.str),
   ("count", counts.map (fun c => Cell.num (c : ℚ)))]

/-- `self.df['g'] = self.df['count'].apply(convertCountToG)`. -/
def dfWithG (sensitivity : ℚ) (timestamps : List String) (counts : List ℤ) : Df :=
  setCol "g" (numCol ((colQ (getCol (initialDf timestamps counts) "count")).map
    (fun q => convertCountToG sensitivity q))) (initialDf timestamps counts)

/-- `self.df = self.getZeroPaddedDf(self.df, ['timestamp', 'g'])`. -/
def paddedDf (sensitivity : ℚ) (timestamps : List String) (counts : List ℤ) : Df :=
  getZeroPaddedDf zeroPadLength (dfWithG sensitivity timestamps counts) ["timestamp", "g"]

/-- The dataframe manipulation of the `Conversion` constructor, stage by
stage in source order: count→g, zero-pad (which rebuilds the frame from
the listed columns only), constant detrend, unit conversion, the two
band-pass applications, integration to velocity, truncation, velocity
finishing, integration to displacement, detrend, high-pass, cm
conversion. -/
def conversionDf (sensitivity : ℚ) (timestamps : List String) (counts : List ℤ) : Df :=
  let df2 := paddedDf sensitivity timestamps counts
  let df3 := setCol "offset_g" (numCol (detrendConstant (colQ (getCol df2 "g")))) df2
  let df4 := setCol "acc_ms2"
    (numCol ((colQ (getCol df3 "offset_g")).map convertGToMetric)) df3
  let df5 := setCol "bandpassed_g"
    (numCol (lfilter (butterPass "band").1 (butterPass "band").2
      (colQ (getCol df4 "offset_g")))) df4
  let df6 := setCol "bandpassed_ms2"
    (numCol (lfilter (butterPass "band").1 (butterPass "band").2
      (colQ (getCol df5 "acc_ms2")))) df5
  let df7 := setCol "velocity_ms"
    (numCol (integrateSeries (1 / 100) (colQ (getCol df6 "bandpassed_ms2")))) df6
  let df8 := removeExtraneousSamplesDf df7
  let df9 := setCol "detrended_velocity_ms"
    (numCol (detrendConstant (colQ (getCol df8 "velocity_ms")))) df8
  let df10 := setCol "detrended_velocity_cms"
    (numCol ((colQ (getCol df9 "detrended_velocity_ms")).map convertMToCm)) df9
  let df11 := setCol "displacement_m"
    (numCol (integrateSeries (1 / 100) (colQ (getCol df10 "detrended_velocity_ms")))) df10
  let df12 := setCol "detrended_displacement_m"
    (numCol (detrendConstant (colQ (getCol df11 "displacement_m")))) df11
  let df13 := setCol "highpassed_displacement_m"
    (numCol (lfilter (butterPass "high").1 (butterPass "high").2
      (colQ (getCol df12 "detrended_displacement_m")))) df12
  let df14 := setCol "highpassed_displacement_cm"
    (numCol ((colQ (getCol df13 "highpassed_displacement_m")).map convertMToCm)) df13
  df14

/-- The thirteen column names of the finished conversion dataframe, in
construction order. -/
def finalColumns : List String :=
  ["timestamp", "g", "offset_g", "acc_ms2", "bandpassed_g", "bandpassed_ms2",
   "velocity_ms", "detrended_velocity_ms", "detrended_velocity_cms",
   "displacement_m", "detrended_displacement_m", "highpassed_displacement_m",
   "highpassed_displacement_cm"]

/-! ## Lemmas about the integration loop -/

theorem integrateAux_length (dt : ℚ) :
    ∀ (xs : List ℚ) (xp y : ℚ), (integrateAux dt xp y xs).length = xs.length := by
  intro xs
  induction xs with
  | nil => intro xp y; rfl
  | cons x t ih => intro xp y; simp [integrateAux, ih]

theorem integrateAux_getD (dt : ℚ) :
    ∀ (xs : List ℚ) (xp yp : ℚ) (i : ℕ), i < xs.length →
      (yp :: integrateAux dt xp yp xs)[i + 1]?.getD 0
        = (yp :: integrateAux dt xp yp xs)[i]?.getD 0
          + dt * ((xp :: xs)[i]?.getD 0 + (xp :: xs)[i + 1]?.getD 0) / 2 := by
  intro xs
  induction xs with
  | nil => intro xp yp i h; simp at h
  | cons x t ih =>
    intro xp yp i h
    cases i with
    | zero =>
      simp [integrateAux]
      ring
    | succ j =>
      have hj : j < t.length := by simpa using h
      have hstep := ih x (dt * (xp + x) / 2 + yp) j hj
      simpa [integrateAux, List.getElem?_cons_succ] using hstep

/-- C1, amended: on every NON-EMPTY input series over `dt = 1/100`,
`integrateSeries` is the cumulative trapezoidal integral: the output has
the input's length, starts at 0 and obeys
`y[i] = y[i-1] + dt*(x[i-1]+x[i])/2`; it is a pure function of the input
list and `dt` by construction.  (On the empty series the source returns
the one-element series `[0]`, so the unrestricted length statement of the
claim fails; see the counterexample.) -/
theorem claim_C1_amended (x : List ℚ) (hx : x ≠ []) :
    (integrateSeries (1 / 100) x).length = x.length ∧
    (integrateSeries (1 / 100) x)[0]?.getD 0 = 0 ∧
    ∀ i : ℕ, i + 1 < x.length →
      (integrateSeries (1 / 100) x)[i + 1]?.getD 0
        = (integrateSeries (1 / 100) x)[i]?.getD 0
          + (1 / 100) * (x[i]?.getD 0 + x[i + 1]?.getD 0) / 2 := by
  obtain ⟨x0, xs, rfl⟩ := List.exists_cons_of_ne_nil hx
  refine ⟨by simp [integrateSeries, integrateAux_length], by simp [integrateSeries], ?_⟩
  intro i hi
  have hi' : i < xs.length := by simpa using hi
  exact integrateAux_getD (1 / 100) xs x0 0 i hi'

/-- C1, counterexample: on the empty input series the source appends
nothing to the initial accumulator `[0]`, so the output has length 1 and
the claimed "output length equals the input length" fails. -/
theorem claim_C1_counterexample :
    integrateSeries (1 / 100) ([] : List ℚ) = [0] ∧
    (integrateSeries (1 / 100) ([] : List ℚ)).length ≠ ([] : List ℚ).length := by
  exact ⟨rfl, by decide⟩

/-- C1, witness: the amended theorem applied to the series `[1, 2, 4]`. -/
theorem claim_C1_witness :
    (integrateSeries (1 / 100) [1, 2, 4]).length = 3 ∧
    (integrateSeries (1 / 100) [1, 2, 4])[0]?.getD 0 = 0 ∧
    (integrateSeries (1 / 100) [1, 2, 4])[2]?.getD 0
      = (integrateSeries (1 / 100) [1, 2, 4])[1]?.getD 0 + (1 / 100) * (2 + 4) / 2 := by
  have h := claim_C1_amended [1, 2, 4] (by decide)
  exact ⟨h.1, h.2.1, h.2.2 1 (by decide)⟩

/-- C2: truncation keeps exactly the entries whose index lies in the
closed range `[ignoredSamples, endIndex] = [6000, 40500]`, reindexed
from 0, so on any series long enough to reach the bound (as every
padded/filtered series of the pipeline is) the truncated length is
`(40000 + zeroPadLength) - ignoredSamples + 1 = 34501`.
`removeExtraneousSamplesDf` applies `truncList ignoredSamples endIndex`
to every column of the dataframe. -/
theorem claim_C2 (l : List ℚ) (h : endIndex < l.length) :
    (truncList ignoredSamples endIndex l).length = 34501 ∧
    ∀ i : ℕ, i < 34501 → (truncList ignoredSamples endIndex l)[i]? = l[ignoredSamples + i]? := by
  have e1 : truncList ignoredSamples endIndex l = (l.drop 6000).take 34501 := by
    norm_num [truncList, ignoredSamples, endIndex, zeroPadLength]
  have hl : 40500 < l.length := by simpa [endIndex, zeroPadLength] using h
  constructor
  · rw [e1, List.length_take, List.length_drop]
    omega
  · intro i hi
    rw [e1, List.getElem?_take, if_pos hi, List.getElem?_drop]
    rfl

/-- C2, witness: the theorem applied to a 40501-sample series. -/
theorem claim_C2_witness :
    (truncList ignoredSamples endIndex (List.replicate 40501 (0 : ℚ))).length = 34501 ∧
    (truncList ignoredSamples endIndex (List.replicate 40501 (0 : ℚ)))[0]?
      = (List.replicate 40501 (0 : ℚ))[ignoredSamples + 0]? := by
  have h := claim_C2 (List.replicate 40501 (0 : ℚ))
    (by rw [List.length_replicate]; norm_num [endIndex, zeroPadLength])
  exact ⟨h.1, h.2 0 (by norm_num)⟩

/-- C4: `convertCountToG` is exactly
`count * (2.5/8388608) * (1/sensitivity)`; with sensitivity 1.25 the two
reference counts give the exact dyadic rationals
`-39527/2^22 = -0.0094239711761474609375` and
`8250/2^22·2 = 0.001966953277587890625`, which agree with the claimed
decimals (the shortest reprs of the corresponding 64-bit floats) at every
printed digit: the difference is below half a unit in the last printed
place. -/
theorem claim_C4 :
    (∀ c : ℤ, convertCountToG (5 / 4) (c : ℚ) = (c : ℚ) * (5 / 2 / 8388608) * (1 / (5 / 4))) ∧
    convertCountToG (5 / 4) (-39527) = -((94239711761474609375 : ℚ) / 10 ^ 22) ∧
    |convertCountToG (5 / 4) (-39527) - (-((9423971176147461 : ℚ) / 10 ^ 18))|
      < 1 / (2 * 10 ^ 18) ∧
    convertCountToG (5 / 4) 8250 = (1966953277587890625 : ℚ) / 10 ^ 21 ∧
    |convertCountToG (5 / 4) 8250 - (19669532775878906 : ℚ) / 10 ^ 19| < 1 / (2 * 10 ^ 19) := by
  refine ⟨fun c => rfl, by norm_num [convertCountToG], ?_, by norm_num [convertCountToG], ?_⟩
  · rw [abs_lt]
    constructor <;> norm_num [convertCountToG]
  · rw [abs_lt]
    constructor <;> norm_num [convertCountToG]

/-! ## Lemmas about column minima, maxima and first indices -/

theorem foldl_min_mem : ∀ (t : List ℚ) (h : ℚ), t.foldl min h ∈ h :: t := by
  intro t
  induction t with
  | nil => intro h; simp
  | cons x xs ih =>
    intro h
    simp only [List.foldl_cons]
    rcases List.mem_cons.mp (ih (min h x)) with h1 | h1
    · rcases min_choice h x with hc | hc
      · rw [h1, hc]; exact List.mem_cons_self _ _
      · rw [h1, hc]; exact List.mem_cons_of_mem _ (List.mem_cons_self _ _)
    · exact List.mem_cons_of_mem _ (List.mem_cons_of_mem _ h1)

theorem foldl_min_le : ∀ (t : List ℚ) (h : ℚ),
    t.foldl min h ≤ h ∧ ∀ v ∈ t, t.foldl min h ≤ v := by
  intro t
  induction t with
  | nil => intro h; exact ⟨le_refl h, by simp⟩
  | cons x xs ih =>
    intro h
    obtain ⟨ha, hb⟩ := ih (min h x)
    simp only [List.foldl_cons]
    refine ⟨le_trans ha (min_le_left _ _), ?_⟩
    intro v hv
    rcases List.mem_cons.mp hv with rfl | hv'
    · exact le_trans ha (min_le_right _ _)
    · exact hb v hv'

theorem foldl_max_mem : ∀ (t : List ℚ) (h : ℚ), t.foldl max h ∈ h :: t := by
  intro t
  induction t with
  | nil => intro h; simp
  | cons x xs ih =>
    intro h
    simp only [List.foldl_cons]
    rcases List.mem_cons.mp (ih (max h x)) with h1 | h1
    · rcases max_choice h x with hc | hc
      · rw [h1, hc]; exact List.mem_cons_self _ _
      · rw [h1, hc]; exact List.mem_cons_of_mem _ (List.mem_cons_self _ _)
    · exact List.mem_cons_of_mem _ (List.mem_cons_of_mem _ h1)

theorem le_foldl_max : ∀ (t : List ℚ) (h : ℚ),
    h ≤ t.foldl max h ∧ ∀ v ∈ t, v ≤ t.foldl max h := by
  intro t
  induction t with
  | nil => intro h; exact ⟨le_refl h, by simp⟩
  | cons x xs ih =>
    intro h
    obtain ⟨ha, hb⟩ := ih (max h x)
    simp only [List.foldl_cons]
    refine ⟨le_trans (le_max_left _ _) ha, ?_⟩
    intro v hv
    rcases List.mem_cons.mp hv with rfl | hv'
    · exact le_trans (le_max_right _ _) ha
    · exact hb v hv'

theorem listMin_mem (l : List ℚ) (hl : l ≠ []) : listMin l ∈ l := by
  cases l with
  | nil => exact absurd rfl hl
  | cons h t => exact foldl_min_mem t h

theorem listMin_le (l : List ℚ) : ∀ v ∈ l, listMin l ≤ v := by
  cases l with
  | nil => simp
  | cons h t =>
    intro v hv
    rcases List.mem_cons.mp hv with rfl | hv'
    · exact (foldl_min_le t v).1
    · exact (foldl_min_le t h).2 v hv'

theorem listMax_mem (l : List ℚ) (hl : l ≠ []) : listMax l ∈ l := by
  cases l with
  | nil => exact absurd rfl hl
  | cons h t => exact foldl_max_mem t h

theorem le_listMax (l : List ℚ) : ∀ v ∈ l, v ≤ listMax l := by
  cases l with
  | nil => simp
  | cons h t =>
    intro v hv
    rcases List.mem_cons.mp hv with rfl | hv'
    · exact (le_foldl_max t v).1
    · exact (le_foldl_max t h).2 v hv'

theorem firstIdxOf_getElem : ∀ (l : List ℚ) (v : ℚ), v ∈ l → l[firstIdxOf v l]? = some v := by
  intro l
  induction l with
  | nil => intro v hv; simp at hv
  | cons h t ih =>
    intro v hv
    by_cases he : h = v
    · simp [firstIdxOf, he]
    · have hv' : v ∈ t := by
        rcases List.mem_cons.mp hv with h1 | h1
        · exact absurd h1.symm he
        · exact h1
      simp [firstIdxOf, he, ih v hv']

theorem firstIdxOf_ne : ∀ (l : List ℚ) (v : ℚ) (j : ℕ),
    j < firstIdxOf v l → l[j]? ≠ some v := by
  intro l
  induction l with
  | nil => intro v j hj; simp [firstIdxOf] at hj
  | cons h t ih =>
    intro v j hj
    by_cases he : h = v
    · simp [firstIdxOf, he] at hj
    · cases j with
      | zero => simp [he]
      | succ k =>
        have hk : k < firstIdxOf v t := by
          have : k + 1 < firstIdxOf v t + 1 := by simpa [firstIdxOf, he] using hj
          omega
        simpa using ih v k hk

/-- C3: for every non-empty column, the rawValue extracted by `getStats`
dominates every entry of the column in absolute value, its absolute
value is `max |min| |max|`, the selection takes the maximum whenever
`|min| <= |max|` (in particular on ties) and the minimum only when
`|max| < |min|`, and roundedValue is rawValue rounded to 4 decimals. -/
theorem claim_C3 (col : List ℚ) (hc : col ≠ []) :
    (∀ v ∈ col, |v| ≤ |(getStats col).2.1|) ∧
    |(getStats col).2.1| = max |listMin col| |listMax col| ∧
    (|listMin col| ≤ |listMax col| → (getStats col).2.1 = listMax col) ∧
    (|listMax col| < |listMin col| → (getStats col).2.1 = listMin col) ∧
    (getStats col).2.2 = pyRound 4 ((getStats col).2.1) := by
  have habs : ∀ v ∈ col, |v| ≤ max |listMin col| |listMax col| := by
    intro v hv
    refine abs_le'.mpr ⟨?_, ?_⟩
    · exact le_trans (le_trans (le_listMax col v hv) (le_abs_self _)) (le_max_right _ _)
    · have h1 : -v ≤ -(listMin col) := neg_le_neg (listMin_le col v hv)
      exact le_trans (le_trans h1 (neg_le_abs _)) (le_max_left _ _)
  by_cases hgt : |listMax col| < |listMin col|
  · have hs : getStats col
        = (firstIdxOf (listMin col) col, listMin col, pyRound 4 (listMin col)) := by
      rw [getStats, if_pos hgt]
    rw [hs]
    have hmax : max |listMin col| |listMax col| = |listMin col| :=
      max_eq_left (le_of_lt hgt)
    refine ⟨?_, ?_, ?_, fun _ => rfl, rfl⟩
    · intro v hv
      have := habs v hv
      rwa [hmax] at this
    · exact hmax.symm ▸ rfl
    · intro hle
      exact absurd hgt (not_lt.mpr hle)
  · have hle : |listMin col| ≤ |listMax col| := not_lt.mp hgt
    have hs : getStats col
        = (firstIdxOf (listMax col) col, listMax col, pyRound 4 (listMax col)) := by
      rw [getStats, if_neg hgt]
    rw [hs]
    have hmax : max |listMin col| |listMax col| = |listMax col| := max_eq_right hle
    refine ⟨?_, ?_, fun _ => rfl, ?_, rfl⟩
    · intro v hv
      have := habs v hv
      rwa [hmax] at this
    · exact hmax.symm ▸ rfl
    · intro hlt
      exact absurd hlt (not_lt.mpr hle)

/-- C3, witness: the theorem applied to the column `[1, -3, 2]`
(peak -3, rounded -3). -/
theorem claim_C3_witness :
    |(2 : ℚ)| ≤ |(getStats [1, -3, 2]).2.1| ∧
    |(getStats [1, -3, 2]).2.1| = max |listMin [1, -3, 2]| |listMax [1, -3, 2]| ∧
    (getStats [1, -3, 2]).2.2 = pyRound 4 ((getStats [1, -3, 2]).2.1) := by
  have h := claim_C3 [1, -3, 2] (by decide)
  exact ⟨h.1 2 (by decide), h.2.1, h.2.2.2.2⟩

/-- C10: for every non-empty column, the index reported by `getStats` is
the first index at which the selected peak value occurs: the entry there
is the peak, and no strictly earlier entry equals it. -/
theorem claim_C10 (col : List ℚ) (hc : col ≠ []) :
    col[(getStats col).1]? = some ((getStats col).2.1) ∧
    ∀ j : ℕ, j < (getStats col).1 → col[j]? ≠ some ((getStats col).2.1) := by
  by_cases hgt : |listMax col| < |listMin col|
  · have hs : getStats col
        = (firstIdxOf (listMin col) col, listMin col, pyRound 4 (listMin col)) := by
      rw [getStats, if_pos hgt]
    rw [hs]
    exact ⟨firstIdxOf_getElem col _ (listMin_mem col hc),
      fun j hj => firstIdxOf_ne col _ j hj⟩
  · have hs : getStats col
        = (firstIdxOf (listMax col) col, listMax col, pyRound 4 (listMax col)) := by
      rw [getStats, if_neg hgt]
    rw [hs]
    exact ⟨firstIdxOf_getElem col _ (listMax_mem col hc),
      fun j hj => firstIdxOf_ne col _ j hj⟩

/-- C10, witness: on `[1, 2, -1, 2]` the peak 2 occurs at indices 1 and
3, and `getStats` reports the first occurrence, index 1. -/
theorem claim_C10_witness :
    ([1, 2, -1, 2] : List ℚ)[(getStats [1, 2, -1, 2]).1]? = some ((getStats [1, 2, -1, 2]).2.1) ∧
    ([1, 2, -1, 2] : List ℚ)[0]? ≠ some ((getStats [1, 2, -1, 2]).2.1) := by
  have h := claim_C10 [1, 2, -1, 2] (by decide)
  exact ⟨h.1, h.2 0 (by decide)⟩

/-! ## Sensitivity selection and floor codes -/

theorem singleton_isInfixChars (a : Char) :
    ∀ l : List Char, isInfixChars [a] l = true ↔ a ∈ l := by
  intro l
  induction l with
  | nil => simp [isInfixChars, headSegChars]
  | cons b t ih =>
    simp only [isInfixChars, headSegChars, Bool.or_eq_true, Bool.and_eq_true, List.mem_cons]
    constructor
    · rintro (⟨h1, _⟩ | h1)
      · exact Or.inl (of_decide_eq_true h1)
      · exact Or.inr (ih.mp h1)
    · rintro (h1 | h1)
      · exact Or.inl ⟨decide_eq_true h1, trivial⟩
      · exact Or.inr (ih.mpr h1)

theorem pyIn_F_iff (s : String) : pyIn "F" s = true ↔ 'F' ∈ s.data :=
  singleton_isInfixChars 'F' s.data

/-- C5: over the fixed code table, `setSensitivity` returns 1.25 for
every known code containing `F` (ground floor and far field), 0.625 for
every other known code, and fails (the source raises `ValueError`,
modelled as `none`) on every unknown code. -/
theorem claim_C5 (s : String) :
    (s ∈ SENSOR_CODES_WITH_CHANNELS → 'F' ∈ s.data → setSensitivity s = some (5 / 4)) ∧
    (s ∈ SENSOR_CODES_WITH_CHANNELS → 'F' ∉ s.data → setSensitivity s = some (5 / 8)) ∧
    (s ∉ SENSOR_CODES_WITH_CHANNELS → setSensitivity s = none) := by
  refine ⟨?_, ?_, ?_⟩
  · intro h1 h2
    have hg : s ∈ SENSOR_CODES_WITH_CHANNELS.filter (fun c => pyIn "F" c) :=
      List.mem_filter.mpr ⟨h1, (pyIn_F_iff s).mpr h2⟩
    rw [setSensitivity]
    rw [if_pos hg]
  · intro h1 h2
    have hng : s ∉ SENSOR_CODES_WITH_CHANNELS.filter (fun c => pyIn "F" c) := by
      intro hmem
      exact h2 ((pyIn_F_iff s).mp (List.mem_filter.mp hmem).2)
    have hu : s ∈ SENSOR_CODES_WITH_CHANNELS.filter (fun c => !(pyIn "F" c)) := by
      refine List.mem_filter.mpr ⟨h1, ?_⟩
      rw [Bool.not_eq_true']
      rw [Bool.eq_false_iff]
      intro hT
      exact h2 ((pyIn_F_iff s).mp hT)
    rw [setSensitivity]
    rw [if_neg hng, if_pos hu]
  · intro h1
    have hng : s ∉ SENSOR_CODES_WITH_CHANNELS.filter (fun c => pyIn "F" c) := by
      intro hmem
      exact h1 (List.mem_filter.mp hmem).1
    have hnu : s ∉ SENSOR_CODES_WITH_CHANNELS.filter (fun c => !(pyIn "F" c)) := by
      intro hmem
      exact h1 (List.mem_filter.mp hmem).1
    rw [setSensitivity]
    rw [if_neg hng, if_neg hnu]

/-- C5, witness: the theorem applied to a ground-floor code, an upper
floor code and an unknown code. -/
theorem claim_C5_witness :
    setSensitivity "B4Fx" = some (5 / 4) ∧
    setSensitivity "N39y" = some (5 / 8) ∧
    setSensitivity "QQQ" = none := by
  have h1 := claim_C5 "B4Fx"
  have h2 := claim_C5 "N39y"
  have h3 := claim_C5 "QQQ"
  exact ⟨h1.1 (by decide) (by decide), h2.2.1 (by decide) (by decide), h3.2.2 (by decide)⟩

/-- C9, amended: `getFloorCode` returns `GF` for a token starting with
`F`; for a token starting with `N` or `S` that contains at least one
digit it returns `L` followed by the digits' value plus one, while with
NO digit the source fails (Python `int('')` raises `ValueError`), not
with the claimed result; for a token starting with `B` it returns `B`
followed by the digit string; for any other starting character it fails
(`letter`/`numeric` stay unbound and Python raises, the spec's
`InvalidSensorCode`). -/
theorem claim_C9_amended (s : String) (c : Char) (cs : List Char) (hs : s.data = c :: cs) :
    (c = 'F' → getFloorCode s = some "GF") ∧
    ((c = 'N' ∨ c = 'S') → (getFloor s).data ≠ [] →
      getFloorCode s = some ("L" ++ toString (digitsToNat (getFloor s).data + 1))) ∧
    ((c = 'N' ∨ c = 'S') → (getFloor s).data = [] → getFloorCode s = none) ∧
    (c = 'B' → getFloorCode s = some ("B" ++ getFloor s)) ∧
    (c ≠ 'F' → c ≠ 'N' → c ≠ 'S' → c ≠ 'B' → getFloorCode s = none) := by
  have key : getFloorCode s = getFloorCodeAux s (c :: cs) := by
    rw [getFloorCode, hs]
  refine ⟨?_, ?_, ?_, ?_, ?_⟩
  · intro h
    subst h
    rw [key]
    rfl
  · intro h hne
    rw [key]
    rcases h with h | h <;> subst h <;>
      simp only [getFloorCodeAux] <;>
      rw [if_neg (by decide), if_pos (by simp), if_neg hne]
  · intro h hn
    rw [key]
    rcases h with h | h <;> subst h <;>
      simp only [getFloorCodeAux] <;>
      rw [if_neg (by decide), if_pos (by simp), if_pos hn]
  · intro h
    subst h
    rw [key]
    rfl
  · intro hF hN hS hB
    rw [key]
    simp only [getFloorCodeAux]
    rw [if_neg hF, if_neg ?hns, if_neg hB]
    case hns =>
      rintro (h | h)
      · exact hN h
      · exact hS h

/-- C9, counterexample: the token `Nx` starts with `N` but has no digit
characters, so the source evaluates `int('')`, which raises; the claimed
`L`-result is not produced. -/
theorem claim_C9_counterexample :
    getFloorCode "Nx" = none ∧
    getFloorCode "Nx" ≠ some ("L" ++ toString (digitsToNat (getFloor "Nx").data + 1)) := by
  constructor <;> decide

/-- C9, witness: the amended theorem applied to one token of each kind. -/
theorem claim_C9_witness :
    getFloorCode "N39x" = some "L40" ∧
    getFloorCode "FFZ" = some "GF" ∧
    getFloorCode "B4Fy" = some "B4" ∧
    getFloorCode "Qx" = none := by
  have h1 := claim_C9_amended "N39x" 'N' ['3', '9', 'x'] rfl
  have h2 := claim_C9_amended "FFZ" 'F' ['F', 'Z'] rfl
  have h3 := claim_C9_amended "B4Fy" 'B' ['4', 'F', 'y'] rfl
  have h4 := claim_C9_amended "Qx" 'Q' ['x'] rfl
  refine ⟨?_, h2.1 rfl, ?_, h4.2.2.2.2 (by decide) (by decide) (by decide) (by decide)⟩
  · have hL := h1.2.1 (Or.inl rfl) (by decide)
    rw [hL]
    decide
  · have hB := h3.2.2.2.1 rfl
    rw [hB]
    decide

/-! ## Lemmas about file ordering -/

theorem insertLe_perm (x : String) : ∀ l : List String, (insertLe x l).Perm (x :: l) := by
  intro l
  induction l with
  | nil => exact List.Perm.refl _
  | cons y t ih =>
    by_cases h : pyStrLe y x
    · have h1 : insertLe x (y :: t) = y :: insertLe x t := by
        rw [insertLe, if_pos h]
      rw [h1]
      exact List.Perm.trans (List.Perm.cons y ih) (List.Perm.swap x y t)
    · have h1 : insertLe x (y :: t) = x :: y :: t := by
        rw [insertLe, if_neg h]
      rw [h1]

theorem foldl_insertLe_perm :
    ∀ (l acc : List String), (l.foldl (fun a x => insertLe x a) acc).Perm (l ++ acc) := by
  intro l
  induction l with
  | nil => intro acc; simp
  | cons x xs ih =>
    intro acc
    have h1 := ih (insertLe x acc)
    have h2 : (xs ++ insertLe x acc).Perm (xs ++ x :: acc) :=
      List.Perm.append_left xs (insertLe_perm x acc)
    have h3 : (xs ++ x :: acc).Perm (x :: (xs ++ acc)) := List.perm_middle
    simp only [List.foldl_cons, List.cons_append]
    exact ((h1.trans h2).trans h3)

theorem pySorted_perm (l : List String) : (pySorted l).Perm l := by
  have h := foldl_insertLe_perm l []
  simpa [pySorted] using h

theorem count_pySorted (s : String) (l : List String) :
    List.count s (pySorted l) = List.count s l :=
  (pySorted_perm l).count_eq s

theorem count_filterB (s : String) (p : String → Bool) (l : List String) :
    List.count s (l.filter p) = if p s then List.count s l else 0 := by
  by_cases h : p s
  · rw [if_pos h, List.count_filter h]
  · rw [if_neg h]
    refine List.count_eq_zero.mpr ?_
    intro hm
    exact h (List.mem_filter.mp hm).2

theorem count_sortGroups (s : String) (l : List String) :
    ∀ (codes : List String) (init : List String),
      List.count s (codes.foldl
        (fun sortedList code => sortedList ++ pySorted (l.filter (fun f => pyIn code f))) init)
        = List.count s init + (codes.countP (fun code => pyIn code s)) * List.count s l := by
  intro codes
  induction codes with
  | nil => intro init; simp
  | cons c cs ih =>
    intro init
    rw [List.foldl_cons, ih, List.count_append, count_pySorted, count_filterB,
      List.countP_cons]
    by_cases h : pyIn c s
    · rw [if_pos h, if_pos h]
      ring
    · rw [if_neg h, if_neg h]
      ring

theorem count_sortFilesBySensorCode (s : String) (l : List String) :
    List.count s (sortFilesBySensorCode l)
      = (SENSOR_CODES.countP (fun code => pyIn code s)) * List.count s l := by
  have h := count_sortGroups s l SENSOR_CODES []
  simpa [sortFilesBySensorCode] using h

theorem countP_one_mul_count (l : List String)
    (h2 : ∀ f ∈ l, SENSOR_CODES.countP (fun code => pyIn code f) = 1) (s : String) :
    (SENSOR_CODES.countP (fun code => pyIn code s)) * List.count s l = List.count s l := by
  by_cases hs : s ∈ l
  · rw [h2 s hs, one_mul]
  · rw [List.count_eq_zero.mpr hs, mul_zero]

/-- C7, amended: `sortFiles` returns a permutation of its input provided
every input file contains exactly one of the eight sensor codes as a
substring (as every real data file does).  A file containing no sensor
code is silently dropped by the per-code grouping of
`sortFilesBySensorCode` (see the counterexample), and a file containing
several codes would be emitted once per matching code, so the
unrestricted claim fails. -/
theorem claim_C7_amended (l out : List String) (h1 : sortFiles l = some out)
    (h2 : ∀ f ∈ l, SENSOR_CODES.countP (fun code => pyIn code f) = 1) : out.Perm l := by
  rw [List.perm_iff_count]
  intro s
  rcases hd : (l.map getTimeText).dedup with _ | ⟨a, _ | ⟨b, _ | ⟨c, t⟩⟩⟩
  · have hnone : sortFiles l = none := by
      rw [sortFiles, hd]
    rw [hnone] at h1
    cases h1
  · have hsome : sortFiles l = some (sortFilesBySensorCode l) := by
      rw [sortFiles, hd]
    rw [hsome] at h1
    obtain rfl := (Option.some.inj h1).symm
    rw [count_sortFilesBySensorCode, countP_one_mul_count l h2 s]
  · have hsome : sortFiles l = some
        (sortFilesBySensorCode (l.filter (fun f => pyIn (if pyStrLt a.1 b.1 then a.2 else b.2) f)) ++
         sortFilesBySensorCode (l.filter (fun f => !(pyIn (if pyStrLt a.1 b.1 then a.2 else b.2) f)))) := by
      rw [sortFiles, hd]
    rw [hsome] at h1
    obtain rfl := (Option.some.inj h1).symm
    rw [List.count_append, count_sortFilesBySensorCode, count_sortFilesBySensorCode]
    have hsplit : List.count s (l.filter (fun f => pyIn (if pyStrLt a.1 b.1 then a.2 else b.2) f))
        + List.count s (l.filter (fun f => !(pyIn (if pyStrLt a.1 b.1 then a.2 else b.2) f)))
        = List.count s l := by
      have hp := (List.filter_append_perm
        (fun f => pyIn (if pyStrLt a.1 b.1 then a.2 else b.2) f) l).count_eq s
      rw [List.count_append] at hp
      exact hp
    calc SENSOR_CODES.countP (fun code => pyIn code s) *
            List.count s (l.filter (fun f => pyIn (if pyStrLt a.1 b.1 then a.2 else b.2) f))
          + SENSOR_CODES.countP (fun code => pyIn code s) *
            List.count s (l.filter (fun f => !(pyIn (if pyStrLt a.1 b.1 then a.2 else b.2) f)))
        = SENSOR_CODES.countP (fun code => pyIn code s) * List.count s l := by
          rw [← mul_add, hsplit]
      _ = List.count s l := countP_one_mul_count l h2 s
  · have hnone : sortFiles l = none := by
      rw [sortFiles, hd]
    rw [hnone] at h1
    cases h1

/-- C7, counterexample: a single well-formed filename containing no
sensor code is dropped, so the output (the empty list) is not a
permutation of the input. -/
theorem claim_C7_counterexample :
    sortFiles ["20190926100000.XYZ.txt"] = some [] ∧
    ¬ (List.Perm ([] : List String) ["20190926100000.XYZ.txt"]) := by
  constructor
  · rfl
  · decide

/-- C7, witness: the amended theorem applied to a two-file list, each
file containing exactly one sensor code; the produced report order
(N39 before B4F) is a permutation of the input. -/
theorem claim_C7_witness :
    List.Perm ["20190926100000.N39x.txt", "20190926100000.B4Fx.txt"]
      ["20190926100000.B4Fx.txt", "20190926100000.N39x.txt"] :=
  claim_C7_amended ["20190926100000.B4Fx.txt", "20190926100000.N39x.txt"]
    ["20190926100000.N39x.txt", "20190926100000.B4Fx.txt"] (by rfl) (by decide)

/-- C8: whenever the number of distinct `(hour, timestamp)` pairs of the
input files is neither 1 nor 2, `sortFiles` produces no ordered
sequence: the Python function falls through and returns `None` (the
spec's `UnsupportedEventSpan`), modelled as `none`. -/
theorem claim_C8 (l : List String)
    (h1 : (l.map getTimeText).dedup.length ≠ 1)
    (h2 : (l.map getTimeText).dedup.length ≠ 2) :
    sortFiles l = none := by
  rcases hd : (l.map getTimeText).dedup with _ | ⟨a, _ | ⟨b, _ | ⟨c, t⟩⟩⟩
  · rw [sortFiles, hd]
  · exact absurd (by rw [hd]; rfl) h1
  · exact absurd (by rw [hd]; rfl) h2
  · rw [sortFiles, hd]

/-- C8, witness: the theorem applied to three files spanning three
distinct hours. -/
theorem claim_C8_witness :
    sortFiles ["20190926100000.N39x.txt", "20190926110000.N39y.txt",
      "20190926120000.N39z.txt"] = none :=
  claim_C8 ["20190926100000.N39x.txt", "20190926110000.N39y.txt", "20190926120000.N39z.txt"]
    (by decide) (by decide)

set_option maxRecDepth 100000

set_option maxHeartbeats 1000000

/-- C6, amended: every assignment stage of the pipeline adds its result
as a new named column while retaining the already present columns, and
the truncation stage keeps all columns (shortening the rows), BUT the
zero-padding stage rebuilds the dataframe from the listed `timestamp`
and `g` columns only, dropping the raw `count` column; so the final
dataframe consists of exactly the thirteen columns of `finalColumns` (in
construction order), no longer contains the raw count series, and the
`g` column written before all later stages survives them unchanged
except for the row truncation. -/
theorem claim_C6_amended (sensitivity : ℚ) (timestamps : List String) (counts : List ℤ) :
    (conversionDf sensitivity timestamps counts).map Prod.fst = finalColumns ∧
    "count" ∉ (conversionDf sensitivity timestamps counts).map Prod.fst ∧
    getCol (conversionDf sensitivity timestamps counts) "g" =
      truncList ignoredSamples endIndex (getCol (paddedDf sensitivity timestamps counts) "g") := by
  have h1 : (conversionDf sensitivity timestamps counts).map Prod.fst = finalColumns := rfl
  refine ⟨h1, ?_, rfl⟩
  rw [h1]
  decide

/-- C6, counterexample: on a concrete input the finished conversion
dataframe has no `count` column at all — the raw count series is
dropped at the zero-padding stage, contradicting the claim that every
earlier column (in particular the raw counts) is retained. -/
theorem claim_C6_counterexample :
    (conversionDf (5 / 8) ["t1"] [5]).lookup "count" = none := rfl

end ConvertAcc
